import Mathlib

/-!
Verification of the rag_mcp RAG service core against its specification.

Shallow embedding conventions:
* Python floats are modelled as `ℚ` (all constants in the code are decimal
  literals, and the properties at issue are exact comparisons).
* Python `dict` results are modelled as Lean structures holding the
  claim-relevant fields.
* Calls to external collaborators (vector store, embedding server, LLM) are
  modelled as explicit `Except String` oracles passed as parameters: `.error`
  models the call raising an exception, `.ok` a normal return.
-/

namespace RagMcp

/-- Single-quote character, used in the literal messages of the source
(f-strings such as "Knowledge base {kb} not found" quote the name). -/
def squote : String := String.singleton (Char.ofNat 39)

/-- Python `s[:n]` on a string (list-of-characters implementation so terms
evaluate by kernel reduction). -/
def py_take (n : ℕ) (s : String) : String := String.mk (s.toList.take n)

/-- Python `str.lower()` (ASCII case folding, as `Char.toLower`). -/
def py_lower (s : String) : String := String.mk (s.toList.map Char.toLower)

/-- Python `str.strip()`: drop leading and trailing whitespace. -/
def py_strip (s : String) : String :=
  String.mk (((s.toList.dropWhile Char.isWhitespace).reverse.dropWhile
    Char.isWhitespace).reverse)

/-- Python `str.startswith(c)` for a single character. -/
def py_startswith (c : Char) (s : String) : Bool := [c].isPrefixOf s.toList

/-- Python `str.split(sep)` for a one-character separator: splits at every
occurrence, keeping empty pieces. -/
def py_split_char (c : Char) (s : String) : List String :=
  (s.toList.splitOn c).map String.mk

/- ===================================================================
   src/src/observability/mcp_tracer.py  MCPToolContext._sanitize_arguments
   =================================================================== -/

/-- A Python value as it appears in a tool-call argument map: a string, a
bytes object (modelled by its byte list), or any other object (opaque). -/
inductive PyVal where
  | str (s : String)
  | bytes (bs : List Nat)
  | other (repr_ : String)
deriving DecidableEq, Repr

/-- Length of the value as Python `len` returns it for `str`/`bytes`. -/
def PyVal.pyLen : PyVal → Nat
  | .str s => s.length
  | .bytes bs => bs.length
  | .other _ => 0

/-- Mirrors one iteration of the loop in `_sanitize_arguments`
(mcp_tracer.py lines 378-390). -/
def sanitize_value (key : String) (value : PyVal) : PyVal :=
  if key = "file_content" ∨ key = "content" then
    -- don't log file content, just size
    match value with
    | .str s => .str ("<" ++ toString s.length ++ " bytes>")
    | .bytes bs => .str ("<" ++ toString bs.length ++ " bytes>")
    | .other _ => .str "<content>"
  else if key = "api_key" ∨ key = "password" ∨ key = "secret" then
    .str "<redacted>"
  else
    match value with
    | .str s => if s.length > 200 then .str (py_take 200 s ++ "...") else .str s
    | v => v

/-- `MCPToolContext._sanitize_arguments` (mcp_tracer.py lines 374-392):
iterates over the argument map and rebuilds it field by field. -/
def sanitize_arguments : List (String × PyVal) → List (String × PyVal)
  | [] => []
  | (k, v) :: rest => (k, sanitize_value k v) :: sanitize_arguments rest

/- ===================================================================
   src/src/core/collection_manager.py  CollectionManager.collection_exists
   and the five RAG-service operations that precheck KB existence
   (rag_service.py lines 301-307, 455-461, 547-551, 635-639, 787-792).
   =================================================================== -/

/-- `CollectionManager._get_collection_name`. -/
def get_collection_name (kb_name : String) : String := "kb_" ++ kb_name

/-- `CollectionManager.collection_exists` (collection_manager.py lines 33-41).
`listing` is the outcome of `client.get_collections()`: `.ok names` is the
collection-name list, `.error e` models the client raising.  The except
clause logs and returns `False`. -/
def collection_exists (listing : Except String (List String)) (kb_name : String) : Bool :=
  match listing with
  | .ok names => names.contains (get_collection_name kb_name)
  | .error _ => false

/-- Minimal result shape shared by the RAG-service operations: the
`success` flag and optional `message` of the returned dict (further
payload fields are irrelevant to the precheck claims). -/
structure OpResult where
  success : Bool
  message : Option String
deriving DecidableEq, Repr

/-- The literal not-found message, f-string
"Knowledge base {kb_name} not found" with the name quoted. -/
def kb_not_found_msg (kb_name : String) : String :=
  "Knowledge base " ++ squote ++ kb_name ++ squote ++ " not found"

/-- `RAGService.upload_document` existence precheck (rag_service.py lines
301-307); `rest` is the remainder of the operation, run only when the KB
exists. -/
def upload_document_precheck (listing : Except String (List String)) (kb_name : String)
    (rest : Unit → OpResult) : OpResult :=
  if collection_exists listing kb_name then rest ()
  else ⟨false, some (kb_not_found_msg kb_name)⟩

/-- `RAGService.list_documents` existence precheck (rag_service.py lines 455-461). -/
def list_documents_precheck (listing : Except String (List String)) (kb_name : String)
    (rest : Unit → OpResult) : OpResult :=
  if collection_exists listing kb_name then rest ()
  else ⟨false, some (kb_not_found_msg kb_name)⟩

/-- `RAGService.get_document` existence precheck (rag_service.py lines 547-551). -/
def get_document_precheck (listing : Except String (List String)) (kb_name : String)
    (rest : Unit → OpResult) : OpResult :=
  if collection_exists listing kb_name then rest ()
  else ⟨false, some (kb_not_found_msg kb_name)⟩

/-- `RAGService.delete_document` existence precheck (rag_service.py lines 635-639). -/
def delete_document_precheck (listing : Except String (List String)) (kb_name : String)
    (rest : Unit → OpResult) : OpResult :=
  if collection_exists listing kb_name then rest ()
  else ⟨false, some (kb_not_found_msg kb_name)⟩

/-- `RAGService.search` existence precheck (rag_service.py lines 787-792). -/
def search_precheck (listing : Except String (List String)) (kb_name : String)
    (rest : Unit → OpResult) : OpResult :=
  if collection_exists listing kb_name then rest ()
  else ⟨false, some (kb_not_found_msg kb_name)⟩

/- ===================================================================
   src/src/core/quality_checker.py  UnsupervisedQualityChecker.check_quality
   =================================================================== -/

/-- `QualityReport` dataclass (quality_checker.py lines 6-16), scores in ℚ
(Python floats; the `details` counters are elided). -/
structure QualityReport where
  overall_score : ℚ
  text_quality : ℚ
  word_quality : ℚ
  consistency : ℚ
  structure_quality : ℚ
  content_density : ℚ
  issues : List String
  recommendations : List String
deriving DecidableEq, Repr

/-- Python `str.split()` with no argument: split on whitespace runs,
discarding empty pieces. -/
def py_split_ws (s : String) : List String :=
  ((s.toList.splitOnP Char.isWhitespace).map String.mk).filter (fun w => w ≠ "")

/-- Average token length, `sum(len(w) for w in words) / max(len(words), 1)`
(quality_checker.py line 35). -/
def avg_word_len (pages : List String) : ℚ :=
  let all_text := String.intercalate "\n" pages
  let words := py_split_ws all_text
  ((words.map String.length).sum : ℚ) / (max words.length 1 : ℕ)

/-- `UnsupervisedQualityChecker.check_quality` (quality_checker.py lines
22-95).  Two pieces of the computation live outside this repository and are
passed as oracle parameters: `printable c` models Python `str.isprintable()`
(a Unicode-table lookup) and `sqrtq` models float `** 0.5` (irrational in
general).  The claims at issue do not depend on either. -/
def check_quality (printable : Char → Bool) (sqrtq : ℚ → ℚ)
    (pages : List String) : QualityReport :=
  match pages with
  | [] => ⟨0, 0, 0, 0, 0, 0, ["No content"], ["Re-extract"]⟩
  | _ =>
    let all_text := String.intercalate "\n" pages
    -- text quality: printable-or-newline/tab character ratio
    let printable_count :=
      all_text.toList.countP (fun c => printable c || c = '\n' || c = '\t')
    let text_quality : ℚ := (printable_count : ℚ) / (max all_text.length 1 : ℕ)
    -- word quality
    let awl := avg_word_len pages
    let word_quality : ℚ := if 4 ≤ awl ∧ awl ≤ 10 then min 1 (awl / 6) else 6/10
    -- consistency (page length variance)
    let page_lens := pages.map String.length
    let avg_len : ℚ := ((page_lens.sum : ℚ)) / (pages.length : ℕ)
    let consistency : ℚ :=
      if avg_len > 0 then
        let variance := ((page_lens.map (fun l => ((l : ℚ) - avg_len) ^ 2)).sum) / (pages.length : ℕ)
        let cv := sqrtq variance / avg_len
        max 0 (1 - cv)
      else 5/10
    -- structure (lines starting with '#')
    let lines := py_split_char '\n' all_text
    let headers := lines.countP (fun l => py_startswith '#' l)
    let structure_quality : ℚ := min 1 ((headers : ℚ) / (max (pages.length * 2) 1 : ℕ))
    -- density (chars per page)
    let avg_chars : ℚ := ((page_lens.sum : ℚ)) / (pages.length : ℕ)
    let content_density : ℚ :=
      if avg_chars ≥ 800 then 1 else if avg_chars ≥ 400 then 8/10
      else if avg_chars ≥ 200 then 6/10 else 4/10
    let overall : ℚ :=
      text_quality * (25/100) + word_quality * (20/100) + consistency * (15/100) +
        structure_quality * (20/100) + content_density * (20/100)
    let issues := if overall ≥ 85/100 then [] else if overall ≥ 70/100 then []
      else ["Low quality score"]
    let recommendations :=
      if overall ≥ 85/100 then ["Excellent quality"]
      else if overall ≥ 70/100 then ["Good quality"]
      else ["Consider re-extraction"]
    ⟨overall, text_quality, word_quality, consistency, structure_quality,
      content_density, issues, recommendations⟩

/- ===================================================================
   src/src/services/rag_service.py  RAGService._deduplicate_results
   =================================================================== -/

/-- A retriever search hit as `_deduplicate_results` consumes it: the
`payload["text"]` content (other payload fields and the score are carried
opaquely and irrelevant to dedup decisions). -/
structure Hit where
  text : String
  score : ℚ
deriving DecidableEq, Repr

/-- The set of distinct characters of a string, Python `set(s)`. -/
def char_set (s : String) : Finset Char := s.toList.toFinset

/-- Character-set overlap ratio `|A∩B| / max(|A|,|B|)`
(rag_service.py lines 1010-1011).  ℚ-division (0 when both sets are
empty; the code never divides by zero because it guards on nonempty
strings). -/
def overlap_ratio (a b : String) : ℚ :=
  ((char_set a ∩ char_set b).card : ℚ) / (max (char_set a).card (char_set b).card : ℕ)

/-- Normalisation before comparison: `content.lower().strip()`
(rag_service.py line 1003). -/
def normalize_content (s : String) : String := py_strip (py_lower s)

/-- Loop body of `_deduplicate_results` (rag_service.py lines 997-1018),
with `seen` the accumulated `seen_contents` list. -/
def dedup_go (seen : List String) : List Hit → List Hit
  | [] => []
  | r :: rest =>
    let content := r.text
    if content = "" then dedup_go seen rest   -- `if not content: continue`
    else
      let normalized := normalize_content content
      let is_duplicate := seen.any (fun s =>
        normalized.length > 0 && s.length > 0 &&
          decide (overlap_ratio normalized s > 9/10))
      if is_duplicate then dedup_go seen rest
      else r :: dedup_go (seen ++ [normalized]) rest

/-- `RAGService._deduplicate_results` (rag_service.py lines 979-1020). -/
def deduplicate_results (results : List Hit) : List Hit :=
  dedup_go [] results

/- ===================================================================
   src/src/core/chat_engine.py  ChatEngine._trim_history / ChatEngine.chat
   =================================================================== -/

/-- A conversation turn `{role, content, timestamp}` (chat_engine.py
lines 90-99). -/
structure Turn where
  role : String
  content : String
  timestamp : String
deriving DecidableEq, Repr

/-- Estimated token count: `sum(len(turn content)) / 4`
(chat_engine.py lines 192-193). -/
def estimated_tokens (history : List Turn) : ℚ :=
  (((history.map (fun t => t.content.length)).sum : ℕ) : ℚ) / 4

/-- `ChatEngine._trim_history` loop (chat_engine.py lines 196-199): while
the estimate exceeds the limit and more than two turns remain, drop the
oldest turn. -/
def trim_history (limit : ℚ) : List Turn → List Turn
  | [] => []
  | t :: rest =>
    if estimated_tokens (t :: rest) > limit ∧ (t :: rest).length > 2 then
      trim_history limit rest
    else t :: rest

/-- The session-history update performed by `ChatEngine.chat` for a call
carrying a `session_id` (chat_engine.py lines 85-102): `llm` is the outcome
of `llm_client.generate`; on `.ok answer` the user and assistant turns are
appended and the history trimmed, on `.error` the exception is caught
before the appends, leaving the stored session unchanged. -/
def chat_engine_session_after (limit : ℚ) (hist : List Turn)
    (query ts : String) (llm : Except String String) : List Turn :=
  match llm with
  | .error _ => hist
  | .ok answer =>
      trim_history limit (hist ++ [⟨"user", query, ts⟩, ⟨"assistant", answer, ts⟩])

/- ===================================================================
   src/src/core/retriever.py  Retriever._rrf_fusion
   =================================================================== -/

/-- A search result `{id, score, payload}` as returned by the vector
store; the payload is carried opaquely as a string. -/
structure ScoredPoint where
  id : String
  score : ℚ
  payload : String
deriving DecidableEq, Repr

/-- A fused result produced by `_rrf_fusion`. -/
structure FusedPoint where
  id : String
  score : ℚ
  payload : String
deriving DecidableEq, Repr

/-- Rank lookup with the semantics of the Python dict comprehension
`{r["id"]: rank for rank, r in enumerate(results, start=1)}`
(retriever.py lines 154-155): the value stored for an id is the rank of
its LAST occurrence (later bindings override earlier ones); `n` is the
rank of the head of the remaining list. -/
def rank_from (n : ℕ) : List ScoredPoint → String → Option ℕ
  | [], _ => none
  | p :: rest, i =>
    match rank_from (n + 1) rest i with
    | some r => some r
    | none => if p.id = i then some n else none

/-- `dense_ranks` / `sparse_ranks` lookup, 1-based. -/
def dict_rank (l : List ScoredPoint) (i : String) : Option ℕ := rank_from 1 l i

/-- RRF score of an id (retriever.py lines 161-168): each list containing
the id contributes `1 / (k + rank)`. -/
def rrf_score (dense sparse : List ScoredPoint) (k : ℕ) (i : String) : ℚ :=
  (match dict_rank dense i with
   | some r => 1 / ((k : ℚ) + r)
   | none => 0) +
  (match dict_rank sparse i with
   | some r => 1 / ((k : ℚ) + r)
   | none => 0)

/-- Payload lookup semantics of `id_to_payload` (retriever.py lines
171-176): dense entries are inserted first with dict override (last dense
occurrence wins), sparse entries only `if r["id"] not in id_to_payload`
(first sparse occurrence wins). -/
def payload_last (l : List ScoredPoint) (i : String) : Option String :=
  match l with
  | [] => none
  | p :: rest =>
    match payload_last rest i with
    | some q => some q
    | none => if p.id = i then some p.payload else none

/-- First-occurrence payload lookup (sparse side of `id_to_payload`). -/
def payload_first : List ScoredPoint → String → Option String
  | [], _ => none
  | p :: rest, i => if p.id = i then some p.payload else payload_first rest i

/-- Combined `id_to_payload[i]`. -/
def payload_of (dense sparse : List ScoredPoint) (i : String) : String :=
  match payload_last dense i with
  | some p => p
  | none => (payload_first sparse i).getD ""

/-- Descending-score order used by `fused.sort(key=..., reverse=True)`. -/
def score_ge (a b : FusedPoint) : Prop := b.score ≤ a.score

instance : DecidableRel score_ge :=
  fun a b => inferInstanceAs (Decidable (b.score ≤ a.score))

instance : IsTotal FusedPoint score_ge := ⟨fun a b => le_total b.score a.score⟩

instance : IsTrans FusedPoint score_ge := ⟨fun _ _ _ hab hbc => le_trans hbc hab⟩

/-- `Retriever._rrf_fusion` (retriever.py lines 134-193).  `all_ids` is a
Python set, whose iteration order is unspecified; it is modelled as one
fixed enumeration of the union (dense ids first), which every property at
issue is independent of.  The final sort is stable descending by score. -/
def rrf_fusion (dense sparse : List ScoredPoint) (k : ℕ) : List FusedPoint :=
  let all_ids := ((dense.map (fun r => r.id)) ++ (sparse.map (fun r => r.id))).dedup
  let fused := all_ids.map (fun i =>
    FusedPoint.mk i (rrf_score dense sparse k i) (payload_of dense sparse i))
  List.insertionSort score_ge fused

/- ===================================================================
   src/src/core/progressive_processor.py
   ProgressiveDocumentProcessor.extract_with_smart_routing
   =================================================================== -/

/-- The three extraction tiers. -/
inductive Tier where
  | fast
  | balanced
  | premium
deriving DecidableEq, Repr

/-- `TIER_COSTS` (progressive_processor.py lines 35-39), dollars per page. -/
def tier_cost : Tier → ℚ
  | .fast => 0
  | .balanced => 0
  | .premium => 13 / 10000

/-- The processor flags and call parameters relevant to the routing loop. -/
structure ProgressiveConfig where
  enable_fast : Bool
  enable_balanced : Bool
  enable_premium : Bool
  start_tier : Tier
  target_quality : ℚ
  auto_retry : Bool

/-- Tier sequence construction (progressive_processor.py lines 84-90). -/
def tier_sequence (cfg : ProgressiveConfig) : List Tier :=
  (if cfg.enable_fast ∧ cfg.start_tier = Tier.fast then [Tier.fast] else []) ++
  (if cfg.enable_balanced then [Tier.balanced] else []) ++
  (if cfg.enable_premium then [Tier.premium] else [])

/-- `"429" in str(e) or "quota" in str(e).lower()`
(progressive_processor.py line 131). -/
def is_quota_error (e : String) : Bool :=
  decide ("429".toList <:+: e.toList) ||
    decide ("quota".toList <:+: (py_lower e).toList)

/-- The `best_result` tuple tracked by the loop: pages, quality overall
score, and the producing tier (the recorded per-attempt time and cost
slots are not consulted by the returned result and are elided). -/
structure TierBest where
  pages : List String
  q : ℚ
  tier : Tier
deriving DecidableEq, Repr

/-- The escalation loop of `extract_with_smart_routing`
(progressive_processor.py lines 97-142).  `oracle t` is the outcome of
`_extract_tier(t, ...)`: extracted pages with their quality-report overall
score, or the raised exception's message.  `last_tier` is `tiers[-1]` of
the full sequence.  Returns the final `(tiers_attempted, total_cost,
best_result)`. -/
def smart_go (oracle : Tier → Except String (List String × ℚ)) (cfg : ProgressiveConfig)
    (last_tier : Tier) :
    List Tier → List Tier → ℚ → Option TierBest → ℚ → List Tier × ℚ × Option TierBest
  | [], attempted, total_cost, best, _ => (attempted, total_cost, best)
  | t :: rest, attempted, total_cost, best, best_q =>
    let attempted := attempted ++ [t]
    match oracle t with
    | .ok (pages, q) =>
      let total_cost := total_cost + (pages.length : ℚ) * tier_cost t
      let best' := if q > best_q then some ⟨pages, q, t⟩ else best
      let best_q' := if q > best_q then q else best_q
      if q ≥ cfg.target_quality then (attempted, total_cost, best')
      else if cfg.auto_retry ∧ t ≠ last_tier then
        smart_go oracle cfg last_tier rest attempted total_cost best' best_q'
      else (attempted, total_cost, best')
    | .error e =>
      if is_quota_error e ∧ t ≠ Tier.fast ∧ cfg.enable_fast then
        -- emergency fallback to the fast tier, then break
        match oracle Tier.fast with
        | .ok (pages, q) => (attempted, total_cost, some ⟨pages, q, Tier.fast⟩)
        | .error _ =>
          if cfg.auto_retry then
            smart_go oracle cfg last_tier rest attempted total_cost best best_q
          else (attempted, total_cost, best)
      else if cfg.auto_retry then
        smart_go oracle cfg last_tier rest attempted total_cost best best_q
      else (attempted, total_cost, best)

/-- `ExtractionResult` (progressive_processor.py lines 15-27); the timing
fields and the full quality report are elided (the report's
`overall_score` is kept as `quality_score`). -/
structure ExtractionResult where
  pages : List String
  tier_used : Tier
  tier_attempted : List Tier
  quality_score : ℚ
  cost : ℚ
  success : Bool
  error : Option String
deriving DecidableEq, Repr

/-- `extract_with_smart_routing` (progressive_processor.py lines 72-172). -/
def extract_with_smart_routing (oracle : Tier → Except String (List String × ℚ))
    (cfg : ProgressiveConfig) : ExtractionResult :=
  let tiers := tier_sequence cfg
  let last_tier := tiers.getLastD Tier.fast  -- `tiers[-1]`, only read inside the loop
  let out := smart_go oracle cfg last_tier tiers [] 0 none 0
  match out.2.2 with
  | some b => ⟨b.pages, b.tier, out.1, b.q, out.2.1, true, none⟩
  | none => ⟨[], cfg.start_tier, out.1, 0, out.2.1, false, some "All tiers failed"⟩

/- ===================================================================
   src/src/services/rag_service.py  RAGService.create_kb  together with
   src/src/core/collection_manager.py  CollectionManager.create_collection
   and src/src/core/router.py  Router.add_kb_to_master
   =================================================================== -/

/-- Observable vector-store state for the KB-lifecycle claims: the
collection names present, and the `(kb_name, description, category)`
descriptor entries of the master index. -/
structure VSState where
  collections : List String
  master : List (String × String × String)
deriving DecidableEq, Repr

/-- Literal message of collection_manager.py line 68. -/
def already_exists_msg (kb_name : String) : String :=
  "Collection " ++ squote ++ kb_name ++ squote ++ " already exists"

/-- Literal message of rag_service.py line 175. -/
def created_msg (kb_name : String) : String :=
  "Knowledge base " ++ squote ++ kb_name ++ squote ++ " created successfully"

/-- `CollectionManager.create_collection` (collection_manager.py lines
43-134).  `create_call` is the outcome of `client.create_collection`,
`meta_upsert` of the descriptor-point `client.upsert`; each `.error` is
caught by the method's except clause, which returns `success: False`
without deleting anything. -/
def collection_mgr_create (st : VSState) (create_call meta_upsert : Except String Unit)
    (kb_name : String) : OpResult × VSState :=
  if st.collections.contains (get_collection_name kb_name) then
    (⟨false, some (already_exists_msg kb_name)⟩, st)
  else
    match create_call with
    | .error e => (⟨false, some e⟩, st)
    | .ok _ =>
      let st1 := { st with collections := st.collections ++ [get_collection_name kb_name] }
      match meta_upsert with
      | .error e => (⟨false, some e⟩, st1)  -- collection already created, kept
      | .ok _ => (⟨true, none⟩, st1)

/-- `Router.add_kb_to_master` (router.py lines 104-155): embeds the
description and upserts it; every exception is caught and reported as
`{"success": False, "error": ...}` — the method never raises. -/
def router_add_kb_to_master (st : VSState) (master_upsert : Except String Unit)
    (kb_name description category : String) : OpResult × VSState :=
  match master_upsert with
  | .error e => (⟨false, some e⟩, st)
  | .ok _ =>
    (⟨true, none⟩, { st with master := st.master ++ [(kb_name, description, category)] })

/-- `RAGService.create_kb` (rag_service.py lines 132-183).  `probe` is the
outcome of the `embed_dense(["test"])` dimension probe (the only call in
the try block that can raise, caught by the except clause).  The result of
`add_kb_to_master` is discarded by the source (line 164): `create_kb`
returns success regardless of it. -/
def rag_create_kb (st : VSState) (probe : Except String ℕ)
    (create_call meta_upsert master_upsert : Except String Unit)
    (kb_name description category : String) : OpResult × VSState :=
  match probe with
  | .error e => (⟨false, some e⟩, st)
  | .ok _dim =>
    let cres := collection_mgr_create st create_call meta_upsert kb_name
    if cres.1.success then
      let ares := router_add_kb_to_master cres.2 master_upsert kb_name description category
      (⟨true, some (created_msg kb_name)⟩, ares.2)
    else cres

/- ===================================================================
   src/src/services/rag_service.py  RAGService.chat  (lines 883-974)
   =================================================================== -/

/-- A session key as it arrives from the JSON-RPC argument map: a string,
or a non-hashable JSON value such as an array (Python `dict.get` raises
`TypeError` on an unhashable key). -/
inductive SessKey where
  | str (s : String)
  | arr (items : List String)
deriving DecidableEq, Repr

/-- `ChatEngine.get_history` (chat_engine.py lines 204-206):
`self._sessions.get(session_id, [])`.  Total for string keys; raises
`TypeError` for an unhashable key. -/
def get_history (sessions : List (String × List Turn)) :
    SessKey → Except String (List Turn)
  | .str s => .ok ((sessions.lookup s).getD [])
  | .arr _ => .error "TypeError: unhashable type: list"

/-- A formatted search result consumed by `chat` (`content`, `score`,
`metadata.source_file` kept). -/
structure SRItem where
  content : String
  score : ℚ
  source_file : String
deriving DecidableEq, Repr

/-- The dict returned by `RAGService.search`, reduced to the fields `chat`
reads (`search` catches all its internal exceptions and always returns
such a dict). -/
structure SearchResult where
  success : Bool
  results : List SRItem
deriving DecidableEq, Repr

/-- The dict returned by `ChatEngine.chat`, reduced to the fields `chat`
reads; `ChatEngine.chat` catches all its exceptions and always returns
such a dict. -/
structure EngineResponse where
  answer : String
  model_name : String
deriving DecidableEq, Repr

/-- The dict returned by `RAGService.chat`, reduced to the claim-relevant
fields (`model`, `timestamp` and `tokens` elided; the early-return error
dict carries no `session_id` key, modelled as `none`). -/
structure ChatResponse where
  success : Bool
  message : Option String
  answer : String
  kb_name : Option String
  sources : List String
  session_id : Option SessKey
deriving DecidableEq, Repr

/-- The early-return dict of rag_service.py lines 914-920. -/
def chat_missing_kb_response : ChatResponse :=
  ⟨false, some "kb_name is required for chat", "", none, [], none⟩

set_option linter.unusedVariables false in
/-- `RAGService.chat` (rag_service.py lines 883-974).  `router` models
`self.router.route` and `use_routing` the parameter of the same name:
both exist but are never consulted by the body.  `search_fn` models
`self.search` (total: it catches internally), `hist_fn` models
`chat_engine.get_history` (may raise on an unhashable key), `engine`
models `ChatEngine.chat` (total).  The final `except` clause only logs
— the function then falls off the end, i.e. returns Python `None`,
modelled as `Option.none`. -/
def rag_chat (router : String → List String)
    (search_fn : String → String → SearchResult)
    (hist_fn : SessKey → Except String (List Turn))
    (engine : String → List String → List Turn → Option SessKey → EngineResponse)
    (query : String) (kb_name : Option String) (session_id : Option SessKey)
    (use_routing : Bool) : Option ChatResponse :=
  let body : Except String ChatResponse :=
    match kb_name with
    | none => .ok chat_missing_kb_response
    | some kb => do
      let sr := search_fn query kb
      let context := if sr.success then sr.results.map (fun r => r.content) else []
      let hist ← match session_id with
        | some sid => hist_fn sid
        | none => Except.ok []
      let resp := engine query context hist session_id
      let sources := if sr.success then
          sr.results.map (fun r => py_take 200 r.content ++ "...") else []
      Except.ok ⟨true, none, resp.answer, some kb, sources, session_id⟩
  match body with
  | .ok d => some d
  | .error _ => none

/-- Value of the `best_quality` accumulator determined by `best_result`
(they are updated in lockstep in the loop). -/
def best_q_of : Option TierBest → ℚ
  | none => 0
  | some b => b.q

/-- Specification predicate: `best` is a genuine output of the tier
oracle, belongs to the attempted list, and dominates the quality of every
attempted tier (`none` only before any attempt). -/
def smart_best_inv (pagesOf : Tier → List String) (qOf : Tier → ℚ)
    (attempted : List Tier) (best : Option TierBest) : Prop :=
  match best with
  | none => attempted = []
  | some b => b.pages = pagesOf b.tier ∧ b.q = qOf b.tier ∧ b.tier ∈ attempted ∧
      ∀ t ∈ attempted, qOf t ≤ b.q

/-- A concrete tier oracle for the quota-fallback scenario: the fast tier
succeeds with quality 1/2, the balanced tier with quality 3/4, and the
premium tier raises a rate-limit error. -/
def quota_oracle : Tier → Except String (List String × ℚ)
  | .fast => .ok (["fast page"], 1/2)
  | .balanced => .ok (["balanced page"], 3/4)
  | .premium => .error "429 rate limit exceeded"

/-- All tiers enabled, start at fast, target quality 4/5, auto-retry on. -/
def quota_cfg : ProgressiveConfig :=
  ⟨true, true, true, Tier.fast, 4/5, true⟩

/-- A concrete all-successful tier oracle (pages component). -/
def allok_pages : Tier → List String
  | .fast => ["fp"]
  | .balanced => ["bp"]
  | .premium => ["pp"]

/-- A concrete all-successful tier oracle (quality component). -/
def allok_q : Tier → ℚ
  | .fast => 6/10
  | .balanced => 82/100
  | .premium => 9/10

/-- The all-successful oracle built from the two components. -/
def allok_oracle : Tier → Except String (List String × ℚ) :=
  fun t => .ok (allok_pages t, allok_q t)

/-- All tiers enabled, start at fast, target quality 8/10, auto-retry on. -/
def allok_cfg : ProgressiveConfig :=
  ⟨true, true, true, Tier.fast, 8/10, true⟩

/- ===================================================================
   Theorems
   =================================================================== -/

/-- C10: `collection_exists` returns `False` (rather than propagating)
whenever the underlying vector-store listing call raises, and each of the
five operations that precheck existence (`upload_document`,
`list_documents`, `get_document`, `delete_document`, `search`) then
reports `success: False` with the "Knowledge base ... not found" message
instead of a transient-error result. -/
theorem collection_exists_error_gives_not_found (e kb_name : String)
    (r1 r2 r3 r4 r5 : Unit → OpResult) :
    collection_exists (Except.error e) kb_name = false ∧
    upload_document_precheck (Except.error e) kb_name r1 =
      ⟨false, some (kb_not_found_msg kb_name)⟩ ∧
    list_documents_precheck (Except.error e) kb_name r2 =
      ⟨false, some (kb_not_found_msg kb_name)⟩ ∧
    get_document_precheck (Except.error e) kb_name r3 =
      ⟨false, some (kb_not_found_msg kb_name)⟩ ∧
    delete_document_precheck (Except.error e) kb_name r4 =
      ⟨false, some (kb_not_found_msg kb_name)⟩ ∧
    search_precheck (Except.error e) kb_name r5 =
      ⟨false, some (kb_not_found_msg kb_name)⟩ :=
  ⟨rfl, rfl, rfl, rfl, rfl, rfl⟩

set_option maxRecDepth 4000 in
/-- C9 counterexample: a 201-character string value under an ordinary key
is "truncated" to its first 200 characters plus `"..."`, a string of
length 203 — so the sanitized arguments do contain a string value longer
than 200 characters, contradicting the claim. -/
theorem sanitize_arguments_truncated_value_longer_than_200 :
    ("q", PyVal.str (py_take 200 (String.mk (List.replicate 201 'a')) ++ "...")) ∈
      sanitize_arguments [("q", PyVal.str (String.mk (List.replicate 201 'a')))] ∧
    (py_take 200 (String.mk (List.replicate 201 'a')) ++ "...").length = 203 ∧
    ¬ ((py_take 200 (String.mk (List.replicate 201 'a')) ++ "...").length ≤ 200) := by
  refine ⟨?_, by decide, by decide⟩
  decide

/-- C9 amended: sanitized arguments replace `file_content`/`content`
values by the `<N bytes>` placeholder when the value is a string or bytes
(by `<content>` otherwise), replace `api_key`/`password`/`secret` values
by `<redacted>`, replace any other string value longer than 200
characters by its first 200 characters followed by `"..."` (so its length
is 203, not ≤ 200), and pass every other field through unchanged. -/
theorem sanitize_arguments_characterization (args : List (String × PyVal)) :
    List.Forall₂ (fun kv kv' : String × PyVal =>
      kv'.1 = kv.1 ∧
      (if kv.1 = "file_content" ∨ kv.1 = "content" then
        kv'.2 = PyVal.str (match kv.2 with
          | .str s => "<" ++ toString s.length ++ " bytes>"
          | .bytes bs => "<" ++ toString bs.length ++ " bytes>"
          | .other _ => "<content>")
      else if kv.1 = "api_key" ∨ kv.1 = "password" ∨ kv.1 = "secret" then
        kv'.2 = PyVal.str "<redacted>"
      else match kv.2 with
        | .str s => (s.length ≤ 200 ∧ kv'.2 = kv.2) ∨
            (200 < s.length ∧ kv'.2 = PyVal.str (py_take 200 s ++ "..."))
        | v => kv'.2 = v))
      args (sanitize_arguments args) := by
  induction args with
  | nil => exact .nil
  | cons kv rest ih =>
    refine List.Forall₂.cons ⟨rfl, ?_⟩ ih
    by_cases h1 : kv.1 = "file_content" ∨ kv.1 = "content"
    · simp only [h1, if_true, sanitize_value]
      cases kv.2 <;> simp [sanitize_value, h1]
    · by_cases h2 : kv.1 = "api_key" ∨ kv.1 = "password" ∨ kv.1 = "secret"
      · simp [sanitize_value, h1, h2]
      · simp only [h1, h2, if_false, sanitize_value]
        cases hv : kv.2 with
        | str s =>
          by_cases hl : s.length > 200
          · exact Or.inr ⟨hl, by simp [sanitize_value, h1, h2, hv, hl]⟩
          · exact Or.inl ⟨by omega, by simp [sanitize_value, h1, h2, hv, hl]⟩
        | bytes bs => simp [sanitize_value, h1, h2, hv]
        | other o => simp [sanitize_value, h1, h2, hv]

/-- C2: `RAGService.chat` never routes.  When `kb_name` is `None` it
returns the `{"success": False, "message": "kb_name is required for
chat"}` dict — for any `use_routing` value — and its result is
independent of the Router: the claim that with `kb_name = None` and
`use_routing = True` the service picks the top KB via the Router is
contradicted by the code (the dispatcher's `auto_routing_chat`, which
forces `kb_name = None`, therefore always receives this failure). -/
theorem rag_chat_requires_kb_name_and_ignores_router
    (search_fn : String → String → SearchResult)
    (hist_fn : SessKey → Except String (List Turn))
    (engine : String → List String → List Turn → Option SessKey → EngineResponse)
    (query : String) (session_id : Option SessKey)
    (router router2 : String → List String) :
    rag_chat router search_fn hist_fn engine query none session_id true =
      some chat_missing_kb_response ∧
    chat_missing_kb_response.success = false ∧
    chat_missing_kb_response.message = some "kb_name is required for chat" ∧
    (∀ kb_name u1 u2,
      rag_chat router search_fn hist_fn engine query kb_name session_id u1 =
        rag_chat router2 search_fn hist_fn engine query kb_name session_id u2) :=
  ⟨rfl, rfl, rfl, fun _ _ _ => rfl⟩

/-- C3: `RAGService.chat` can return Python `None` instead of a
`{success, ...}` dict: its final `except` clause only logs and falls off
the end of the function.  The handler is reachable through the
dispatcher — e.g. a `tools/call` for `chat` whose `session_id` argument
is a JSON array makes `chat_engine.get_history` raise `TypeError:
unhashable type`, which `chat` catches and then returns `None`; the same
call with a string `session_id` returns a dict. -/
theorem rag_chat_exception_path_returns_none :
    rag_chat (fun _ => []) (fun _ _ => ⟨true, []⟩) (get_history [])
      (fun _ _ _ _ => ⟨"answer", "model"⟩) "hi" (some "law")
      (some (SessKey.arr ["x"])) false = none ∧
    rag_chat (fun _ => []) (fun _ _ => ⟨true, []⟩) (get_history [])
      (fun _ _ _ _ => ⟨"answer", "model"⟩) "hi" (some "law")
      (some (SessKey.str "s")) false =
      some ⟨true, none, "answer", some "law", [], some (SessKey.str "s")⟩ :=
  ⟨rfl, rfl⟩

/-- C1 counterexample: with a fresh state, a successful collection
creation and a failing master-index insert, `create_kb` reports
`success: True` (the discarded `add_kb_to_master` failure) and the newly
created `kb_law` collection remains while the master index stays empty —
contradicting the claim that it returns `{success: false}` and deletes
the partially created collection. -/
theorem create_kb_master_failure_keeps_collection :
    (rag_create_kb ⟨[], []⟩ (.ok 4) (.ok ()) (.ok ()) (.error "connection refused")
        "law" "firearms law" "legal").1.success = true ∧
    (rag_create_kb ⟨[], []⟩ (.ok 4) (.ok ()) (.ok ()) (.error "connection refused")
        "law" "firearms law" "legal").2.collections = ["kb_law"] ∧
    (rag_create_kb ⟨[], []⟩ (.ok 4) (.ok ()) (.ok ()) (.error "connection refused")
        "law" "firearms law" "legal").2.master = [] :=
  ⟨rfl, rfl, rfl⟩

/-- C1 amended: if the embedding-dimension probe raises, `create_kb`
returns `{success: false, message}` and the state is unchanged; but when
the master-index descriptor insert fails (it reports failure rather than
raising), `create_kb` ignores the reported failure, returns
`{success: true}`, and the created collection is not deleted — it remains
visible, while the master index is unchanged. -/
theorem create_kb_failure_behaviour (st : VSState) (kb desc cat : String) (dim : ℕ)
    (master_err probe_err : String)
    (h : get_collection_name kb ∉ st.collections) :
    ((rag_create_kb st (.ok dim) (.ok ()) (.ok ()) (.error master_err)
        kb desc cat).1.success = true ∧
      (rag_create_kb st (.ok dim) (.ok ()) (.ok ()) (.error master_err)
        kb desc cat).1.message = some (created_msg kb) ∧
      (rag_create_kb st (.ok dim) (.ok ()) (.ok ()) (.error master_err)
        kb desc cat).2.collections = st.collections ++ [get_collection_name kb] ∧
      (rag_create_kb st (.ok dim) (.ok ()) (.ok ()) (.error master_err)
        kb desc cat).2.master = st.master) ∧
    rag_create_kb st (.error probe_err) (.ok ()) (.ok ()) (.ok ()) kb desc cat =
      (⟨false, some probe_err⟩, st) := by
  refine ⟨?_, rfl⟩
  simp [rag_create_kb, collection_mgr_create, router_add_kb_to_master, h]

/-- C1 witness: the amended behaviour at a concrete fresh state. -/
theorem create_kb_failure_behaviour_witness :
    get_collection_name "law" ∉ (VSState.mk [] []).collections ∧
    (((rag_create_kb ⟨[], []⟩ (.ok 4) (.ok ()) (.ok ()) (.error "down")
        "law" "d" "c").1.success = true ∧
      (rag_create_kb ⟨[], []⟩ (.ok 4) (.ok ()) (.ok ()) (.error "down")
        "law" "d" "c").1.message = some (created_msg "law") ∧
      (rag_create_kb ⟨[], []⟩ (.ok 4) (.ok ()) (.ok ()) (.error "down")
        "law" "d" "c").2.collections = [] ++ [get_collection_name "law"] ∧
      (rag_create_kb ⟨[], []⟩ (.ok 4) (.ok ()) (.ok ()) (.error "down")
        "law" "d" "c").2.master = ([] : List (String × String × String))) ∧
    rag_create_kb ⟨[], []⟩ (.error "probe failed") (.ok ()) (.ok ()) (.ok ())
        "law" "d" "c" = (⟨false, some "probe failed"⟩, ⟨[], []⟩)) :=
  ⟨by decide, create_kb_failure_behaviour ⟨[], []⟩ "law" "d" "c" 4 "down"
    "probe failed" (by decide)⟩

/-- The trim loop only ever removes turns from the front: its result is a
suffix of its input. -/
theorem trim_history_suffix (limit : ℚ) : ∀ l : List Turn, trim_history limit l <:+ l := by
  intro l
  induction l with
  | nil => exact List.suffix_rfl
  | cons t rest ih =>
    rw [trim_history]
    by_cases h : estimated_tokens (t :: rest) > limit ∧ (t :: rest).length > 2
    · rw [if_pos h]
      exact ih.trans (List.suffix_cons t rest)
    · rw [if_neg h]

/-- The trim loop's exit condition: afterwards the estimate is within the
limit or at most two turns remain. -/
theorem trim_history_post (limit : ℚ) : ∀ l : List Turn,
    estimated_tokens (trim_history limit l) ≤ limit ∨
      (trim_history limit l).length < 3 := by
  intro l
  induction l with
  | nil => exact Or.inr (by simp [trim_history])
  | cons t rest ih =>
    rw [trim_history]
    by_cases h : estimated_tokens (t :: rest) > limit ∧ (t :: rest).length > 2
    · rw [if_pos h]
      exact ih
    · rw [if_neg h]
      rcases not_and_or.mp h with h1 | h2
      · exact Or.inl (le_of_not_lt h1)
      · exact Or.inr (by omega)

/-- C7: after a `chat` call carrying a `session_id`, the stored session
satisfies "estimated tokens (sum of content lengths ÷ 4) ≤
memory_token_limit or fewer than 3 turns", and trimming removes only the
oldest turns: on a successful LLM call the new session is a suffix of the
old history plus the two appended turns, and on an LLM exception the
session is unchanged (so the invariant persists from the previous call). -/
theorem chat_session_memory_invariant (limit : ℚ) (hist : List Turn)
    (query ts : String) (llm : Except String String)
    (hpre : estimated_tokens hist ≤ limit ∨ hist.length < 3) :
    (estimated_tokens (chat_engine_session_after limit hist query ts llm) ≤ limit ∨
      (chat_engine_session_after limit hist query ts llm).length < 3) ∧
    (∀ answer, llm = .ok answer →
      chat_engine_session_after limit hist query ts llm <:+
        hist ++ [⟨"user", query, ts⟩, ⟨"assistant", answer, ts⟩]) ∧
    (∀ e, llm = .error e → chat_engine_session_after limit hist query ts llm = hist) := by
  refine ⟨?_, ?_, ?_⟩
  · cases llm with
    | error e => exact hpre
    | ok answer => exact trim_history_post limit _
  · intro answer hok
    subst hok
    exact trim_history_suffix limit _
  · intro e herr
    subst herr
    rfl

/-- C7 witness: the invariant at a concrete over-limit session. -/
theorem chat_session_memory_invariant_witness :
    (estimated_tokens [] ≤ 1 ∨ ([] : List Turn).length < 3) ∧
    ((estimated_tokens (chat_engine_session_after 1 [] "q" "t"
        (.ok "aaaaaaaaaaaa")) ≤ 1 ∨
      (chat_engine_session_after 1 [] "q" "t" (.ok "aaaaaaaaaaaa")).length < 3) ∧
    (∀ answer, (Except.ok "aaaaaaaaaaaa" : Except String String) = .ok answer →
      chat_engine_session_after 1 [] "q" "t" (.ok "aaaaaaaaaaaa") <:+
        [] ++ [⟨"user", "q", "t"⟩, ⟨"assistant", answer, "t"⟩]) ∧
    (∀ e, (Except.ok "aaaaaaaaaaaa" : Except String String) = .error e →
      chat_engine_session_after 1 [] "q" "t" (.ok "aaaaaaaaaaaa") = [])) :=
  ⟨Or.inr (by decide),
    chat_session_memory_invariant 1 [] "q" "t" (.ok "aaaaaaaaaaaa") (Or.inr (by decide))⟩

/-- The overlap ratio is symmetric. -/
theorem overlap_ratio_comm (a b : String) : overlap_ratio a b = overlap_ratio b a := by
  unfold overlap_ratio
  rw [Finset.inter_comm, Nat.max_comm]

/-- A string of length 0 has an empty character set, so its overlap ratio
with anything is 0. -/
theorem overlap_ratio_of_left_empty {a : String} (h : ¬ a.length > 0) (b : String) :
    overlap_ratio a b = 0 := by
  have hz : a.length = 0 := Nat.le_zero.mp (Nat.le_of_not_lt h)
  have hdata : a.toList = [] := List.length_eq_zero.mp hz
  unfold overlap_ratio char_set
  rw [hdata]
  simp

/-- Every element kept by the dedup loop has overlap at most 9/10 with
every normalized text in the `seen` accumulator. -/
theorem dedup_go_mem_overlap : ∀ (seen : List String) (rs : List Hit) (b : Hit),
    b ∈ dedup_go seen rs → ∀ s ∈ seen,
      overlap_ratio (normalize_content b.text) s ≤ 9/10 := by
  intro seen rs
  induction rs generalizing seen with
  | nil => intro b hb; simp [dedup_go] at hb
  | cons r rest ih =>
    intro b hb s hs
    rw [dedup_go] at hb
    by_cases hempty : r.text = ""
    · rw [if_pos hempty] at hb
      exact ih seen b hb s hs
    · rw [if_neg hempty] at hb
      set normalized := normalize_content r.text with hnorm
      by_cases hdup : (seen.any (fun s1 =>
        normalized.length > 0 && s1.length > 0 &&
          decide (overlap_ratio normalized s1 > 9/10))) = true
      · rw [if_pos hdup] at hb
        exact ih seen b hb s hs
      · rw [if_neg hdup] at hb
        rcases List.mem_cons.mp hb with hbr | hbtail
        · subst hbr
          have hnotdup := (List.any_eq_true.not.mp hdup)
          push_neg at hnotdup
          have hsfalse := hnotdup s hs
          have hsfalse' : ¬ (normalized.length > 0 ∧ s.length > 0 ∧
              overlap_ratio normalized s > 9/10) := by
            intro hall
            exact hsfalse (by simp [hall.1, hall.2.1, hall.2.2])
          rcases not_and_or.mp hsfalse' with hn | hbc
          · rw [overlap_ratio_of_left_empty hn s]
            norm_num
          · rcases not_and_or.mp hbc with hsl | hr
            · rw [overlap_ratio_comm, overlap_ratio_of_left_empty hsl]
              norm_num
            · exact le_of_not_lt hr
        · exact ih (seen ++ [normalized]) b hbtail s (List.mem_append_left _ hs)

/-- The dedup output, started from any accumulator, is pairwise below the
9/10 overlap threshold. -/
theorem dedup_go_pairwise : ∀ (seen : List String) (rs : List Hit),
    (dedup_go seen rs).Pairwise (fun a b =>
      overlap_ratio (normalize_content a.text) (normalize_content b.text) ≤ 9/10) := by
  intro seen rs
  induction rs generalizing seen with
  | nil => simp [dedup_go]
  | cons r rest ih =>
    rw [dedup_go]
    by_cases hempty : r.text = ""
    · rw [if_pos hempty]; exact ih seen
    · rw [if_neg hempty]
      set normalized := normalize_content r.text with hnorm
      by_cases hdup : (seen.any (fun s1 =>
        normalized.length > 0 && s1.length > 0 &&
          decide (overlap_ratio normalized s1 > 9/10))) = true
      · rw [if_pos hdup]; exact ih seen
      · rw [if_neg hdup]
        refine List.Pairwise.cons ?_ (ih (seen ++ [normalized]))
        intro b hb
        have := dedup_go_mem_overlap (seen ++ [normalized]) rest b hb normalized
          (List.mem_append_right _ (List.mem_singleton_self _))
        rw [overlap_ratio_comm] at this
        exact this

/-- The dedup loop preserves the ranked order and only removes elements. -/
theorem dedup_go_sublist : ∀ (seen : List String) (rs : List Hit),
    (dedup_go seen rs).Sublist rs := by
  intro seen rs
  induction rs generalizing seen with
  | nil => simp [dedup_go]
  | cons r rest ih =>
    rw [dedup_go]
    by_cases hempty : r.text = ""
    · rw [if_pos hempty]; exact (ih seen).cons r
    · rw [if_neg hempty]
      by_cases hdup : ((seen.any (fun s1 =>
        (normalize_content r.text).length > 0 && s1.length > 0 &&
          decide (overlap_ratio (normalize_content r.text) s1 > 9/10))) = true)
      · rw [if_pos hdup]; exact (ih seen).cons r
      · rw [if_neg hdup]
        exact (ih _).cons₂ r

/-- C6 amended: `_deduplicate_results` iterates in rank order (the output
is a sublist of the input) and drops a candidate exactly when its text is
empty or its distinct-character-set overlap with some already-kept
normalized text is STRICTLY greater than 0.9; consequently any two
retained results have overlap ratio at most 0.9 (equality is possible). -/
theorem deduplicate_results_pairwise (results : List Hit) :
    (deduplicate_results results).Sublist results ∧
    (deduplicate_results results).Pairwise (fun a b =>
      overlap_ratio (normalize_content a.text) (normalize_content b.text) ≤ 9/10) :=
  ⟨dedup_go_sublist [] results, dedup_go_pairwise [] results⟩

/-- C6 counterexample: two texts whose character-set overlap is exactly
9/10 are BOTH retained (the code drops only on strict `> 0.9`), so the
claimed invariant "any two retained results have overlap < 0.9" and the
claimed drop condition "≥ 0.9" are both false at this input. -/
theorem dedup_retains_pair_with_overlap_nine_tenths :
    deduplicate_results [⟨"abcdefghij", 1⟩, ⟨"abcdefghi", 1⟩] =
      [⟨"abcdefghij", 1⟩, ⟨"abcdefghi", 1⟩] ∧
    overlap_ratio (normalize_content "abcdefghij") (normalize_content "abcdefghi")
      = 9/10 ∧
    ¬ (overlap_ratio (normalize_content "abcdefghij") (normalize_content "abcdefghi")
      < 9/10) := by
  have hnorm1 : normalize_content "abcdefghij" = "abcdefghij" := by decide
  have hnorm2 : normalize_content "abcdefghi" = "abcdefghi" := by decide
  have hcard_inter : (char_set "abcdefghi" ∩ char_set "abcdefghij").card = 9 := by decide
  have hcard_inter2 : (char_set "abcdefghij" ∩ char_set "abcdefghi").card = 9 := by decide
  have hmax : max (char_set "abcdefghi").card (char_set "abcdefghij").card = 10 := by
    decide
  have hmax2 : max (char_set "abcdefghij").card (char_set "abcdefghi").card = 10 := by
    decide
  have hratio : overlap_ratio "abcdefghi" "abcdefghij" = 9/10 := by
    unfold overlap_ratio
    rw [hcard_inter, hmax]
    norm_num
  have hratio2 : overlap_ratio "abcdefghij" "abcdefghi" = 9/10 := by
    unfold overlap_ratio
    rw [hcard_inter2, hmax2]
    norm_num
  refine ⟨?_, by rw [hnorm1, hnorm2, hratio2], by rw [hnorm1, hnorm2, hratio2]; norm_num⟩
  have hne1 : ¬ (("abcdefghij" : String) = "") := by decide
  have hne2 : ¬ (("abcdefghi" : String) = "") := by decide
  have h3f : decide (overlap_ratio "abcdefghi" "abcdefghij" > 9/10) = false :=
    decide_eq_false (by rw [hratio]; norm_num)
  simp only [deduplicate_results, dedup_go, hnorm1, hnorm2, hne1, hne2,
    List.nil_append, List.any_nil, List.any_cons, Bool.or_false, h3f,
    Bool.and_false, if_false, ite_false, if_neg, Bool.false_eq_true]

/-- C8 counterexample: for a page whose average token length is exactly 4
(inside the claimed interval `[4, 10]`), `word_quality` is
`min(1, 4/6) = 2/3`, not the claimed `1.0`. -/
theorem check_quality_word_quality_not_one_at_avg4 :
    avg_word_len ["aaaa bbbb"] = 4 ∧
    ((4:ℚ) ≤ 4 ∧ (4:ℚ) ≤ 10) ∧
    (check_quality (fun _ => true) (fun _ => 0) ["aaaa bbbb"]).word_quality = 2/3 ∧
    (2:ℚ)/3 ≠ 1 := by
  have h1 : py_split_ws (String.intercalate "\n" ["aaaa bbbb"]) = ["aaaa", "bbbb"] := by
    decide
  have h2 : ((["aaaa", "bbbb"] : List String).map String.length).sum = 8 := by decide
  have h3 : max (["aaaa", "bbbb"] : List String).length 1 = 2 := by decide
  have haw : avg_word_len ["aaaa bbbb"] = 4 := by
    simp only [avg_word_len, h1, h2, h3]
    norm_num
  refine ⟨haw, ⟨le_refl _, by norm_num⟩, ?_, by norm_num⟩
  show (if 4 ≤ avg_word_len ["aaaa bbbb"] ∧ avg_word_len ["aaaa bbbb"] ≤ 10
      then min 1 (avg_word_len ["aaaa bbbb"] / 6) else 6/10) = 2/3
  rw [haw, if_pos (by norm_num : (4:ℚ) ≤ 4 ∧ (4:ℚ) ≤ 10)]
  rw [min_eq_right (by norm_num : (4:ℚ)/6 ≤ 1)]
  norm_num

/-- C8 amended: for every non-empty page list, `word_quality` equals
`min(1, avg/6)` when the average token length `avg` lies in `[4, 10]`
(hence it equals 1.0 exactly when `avg ∈ [6, 10]`, not on all of
`[4, 10]`) and `0.6` otherwise; the overall score is the weighted sum
with weights 0.25, 0.20, 0.15, 0.20, 0.20 over the five dimensions. -/
theorem check_quality_word_quality_formula (printable : Char → Bool) (sqrtq : ℚ → ℚ)
    (pages : List String) (h : pages ≠ []) :
    ((check_quality printable sqrtq pages).word_quality =
      if 4 ≤ avg_word_len pages ∧ avg_word_len pages ≤ 10
        then min 1 (avg_word_len pages / 6) else 6/10) ∧
    ((check_quality printable sqrtq pages).word_quality = 1 ↔
      6 ≤ avg_word_len pages ∧ avg_word_len pages ≤ 10) ∧
    (check_quality printable sqrtq pages).overall_score =
      (check_quality printable sqrtq pages).text_quality * (25/100) +
      (check_quality printable sqrtq pages).word_quality * (20/100) +
      (check_quality printable sqrtq pages).consistency * (15/100) +
      (check_quality printable sqrtq pages).structure_quality * (20/100) +
      (check_quality printable sqrtq pages).content_density * (20/100) := by
  cases pages with
  | nil => exact absurd rfl h
  | cons p ps =>
    refine ⟨rfl, ?_, rfl⟩
    show (if 4 ≤ avg_word_len (p :: ps) ∧ avg_word_len (p :: ps) ≤ 10
        then min 1 (avg_word_len (p :: ps) / 6) else 6/10) = 1 ↔
      6 ≤ avg_word_len (p :: ps) ∧ avg_word_len (p :: ps) ≤ 10
    set awl := avg_word_len (p :: ps) with hawl
    by_cases hc : 4 ≤ awl ∧ awl ≤ 10
    · rw [if_pos hc]
      constructor
      · intro hmin
        have h16 : (1:ℚ) ≤ awl / 6 := min_eq_left_iff.mp hmin
        have h6 : (6:ℚ) ≤ awl := by
          rw [le_div_iff₀ (by norm_num : (0:ℚ) < 6)] at h16
          linarith
        exact ⟨h6, hc.2⟩
      · intro hx
        have h6 : (1:ℚ) ≤ awl / 6 := by
          rw [le_div_iff₀ (by norm_num : (0:ℚ) < 6)]
          linarith [hx.1]
        exact min_eq_left_iff.mpr h6
    · rw [if_neg hc]
      constructor
      · intro hbad
        exact absurd hbad (by norm_num)
      · intro hx
        exact absurd ⟨by linarith [hx.1], hx.2⟩ hc

/-- C8 witness: the amended formula at a concrete one-page input with
average token length 4. -/
theorem check_quality_word_quality_formula_witness :
    (["aaaa bbbb"] : List String) ≠ [] ∧
    (((check_quality (fun _ => true) (fun _ => 0) ["aaaa bbbb"]).word_quality =
      if 4 ≤ avg_word_len ["aaaa bbbb"] ∧ avg_word_len ["aaaa bbbb"] ≤ 10
        then min 1 (avg_word_len ["aaaa bbbb"] / 6) else 6/10) ∧
    ((check_quality (fun _ => true) (fun _ => 0) ["aaaa bbbb"]).word_quality = 1 ↔
      6 ≤ avg_word_len ["aaaa bbbb"] ∧ avg_word_len ["aaaa bbbb"] ≤ 10) ∧
    (check_quality (fun _ => true) (fun _ => 0) ["aaaa bbbb"]).overall_score =
      (check_quality (fun _ => true) (fun _ => 0) ["aaaa bbbb"]).text_quality * (25/100) +
      (check_quality (fun _ => true) (fun _ => 0) ["aaaa bbbb"]).word_quality * (20/100) +
      (check_quality (fun _ => true) (fun _ => 0) ["aaaa bbbb"]).consistency * (15/100) +
      (check_quality (fun _ => true) (fun _ => 0) ["aaaa bbbb"]).structure_quality * (20/100) +
      (check_quality (fun _ => true) (fun _ => 0) ["aaaa bbbb"]).content_density * (20/100)) :=
  ⟨by decide, check_quality_word_quality_formula (fun _ => true) (fun _ => 0)
    ["aaaa bbbb"] (by decide)⟩

/-- An id absent from a result list has no rank. -/
theorem rank_from_none {l : List ScoredPoint} {i : String}
    (h : i ∉ l.map (fun r => r.id)) : ∀ n, rank_from n l i = none := by
  induction l with
  | nil => intro n; rfl
  | cons p rest ih =>
    intro n
    rw [rank_from]
    have hpi : ¬ (p.id = i) := by
      intro he
      exact h (by simp [he])
    have hrest : i ∉ rest.map (fun r => r.id) := by
      intro hmem
      exact h (by simp [hmem])
    rw [ih hrest (n + 1), if_neg hpi]

/-- Under duplicate-free ids, the dict-comprehension rank of an id in the
list is the (0-based) index of its unique occurrence, offset by `n`. -/
theorem rank_from_nodup {l : List ScoredPoint} :
    (l.map (fun r => r.id)).Nodup → ∀ (i : String) (n : ℕ),
    rank_from n l i = if i ∈ l.map (fun r => r.id)
      then some (n + (l.map (fun r => r.id)).indexOf i) else none := by
  induction l with
  | nil => intro _ i n; simp [rank_from]
  | cons p rest ih =>
    intro hnd i n
    rw [List.map_cons] at hnd
    rcases List.nodup_cons.mp hnd with ⟨hp, hrest⟩
    rw [rank_from]
    by_cases hpi : p.id = i
    · subst hpi
      rw [rank_from_none hp (n + 1)]
      simp
    · rw [ih hrest i (n + 1)]
      by_cases hmem : i ∈ rest.map (fun r => r.id)
      · have hmem2 : i ∈ List.map (fun r => r.id) (p :: rest) := by
          rw [List.map_cons]
          exact List.mem_cons_of_mem _ hmem
        have hidx : (List.map (fun r => r.id) (p :: rest)).indexOf i =
            (rest.map (fun r => r.id)).indexOf i + 1 := by
          rw [List.map_cons]
          exact List.indexOf_cons_ne _ hpi
        rw [if_pos hmem, if_pos hmem2, hidx]
        exact congrArg some (by omega)
      · have hmem2 : i ∉ List.map (fun r => r.id) (p :: rest) := by
          rw [List.map_cons, List.mem_cons]
          push_neg
          exact ⟨fun h => hpi h.symm, hmem⟩
        rw [if_neg hmem, if_neg hmem2]
        show (if p.id = i then some n else (none : Option ℕ)) = none
        rw [if_neg hpi]

/-- 1-based rank of an id under duplicate-free ids. -/
theorem dict_rank_nodup {l : List ScoredPoint}
    (hnd : (l.map (fun r => r.id)).Nodup) (i : String) :
    dict_rank l i = if i ∈ l.map (fun r => r.id)
      then some ((l.map (fun r => r.id)).indexOf i + 1) else none := by
  rw [dict_rank, rank_from_nodup hnd i 1]
  by_cases hmem : i ∈ l.map (fun r => r.id)
  · rw [if_pos hmem, if_pos hmem]
    congr 1
    omega
  · rw [if_neg hmem, if_neg hmem]

/-- C4: for duplicate-free dense and sparse rank lists, the RRF-fused
list contains each id of the union exactly once (no duplicate ids, and an
id appears iff it is in one of the lists, so the length is bounded by the
union's size), the fused score of each entry is the sum over the lists
containing it of `1/(k + rank)` with 1-based ranks (an id in only one
list contributes only that term), and the fused list is sorted descending
by fused score. -/
theorem rrf_fusion_spec (dense sparse : List ScoredPoint) (k : ℕ)
    (hd : (dense.map (fun r => r.id)).Nodup)
    (hs : (sparse.map (fun r => r.id)).Nodup) :
    ((rrf_fusion dense sparse k).map (fun e => e.id)).Nodup ∧
    (∀ i, (i ∈ (rrf_fusion dense sparse k).map (fun e => e.id)) ↔
      (i ∈ dense.map (fun r => r.id) ∨ i ∈ sparse.map (fun r => r.id))) ∧
    (rrf_fusion dense sparse k).length ≤
      ((dense.map (fun r => r.id)) ++ (sparse.map (fun r => r.id))).dedup.length ∧
    (∀ e ∈ rrf_fusion dense sparse k, e.score =
      (if e.id ∈ dense.map (fun r => r.id)
        then 1 / ((k:ℚ) + ((dense.map (fun r => r.id)).indexOf e.id + 1)) else 0) +
      (if e.id ∈ sparse.map (fun r => r.id)
        then 1 / ((k:ℚ) + ((sparse.map (fun r => r.id)).indexOf e.id + 1)) else 0)) ∧
    (rrf_fusion dense sparse k).Sorted score_ge := by
  set all_ids := ((dense.map (fun r => r.id)) ++ (sparse.map (fun r => r.id))).dedup
    with hall
  set base := all_ids.map (fun i =>
    FusedPoint.mk i (rrf_score dense sparse k i) (payload_of dense sparse i)) with hbase
  have hfused : rrf_fusion dense sparse k = List.insertionSort score_ge base := rfl
  have hperm : (rrf_fusion dense sparse k).Perm base := by
    rw [hfused]
    exact List.perm_insertionSort score_ge base
  have hbase_ids : base.map (fun e => e.id) = all_ids := by
    rw [hbase, List.map_map]
    exact List.map_id'' (fun _ => rfl) _
  have hids_perm : ((rrf_fusion dense sparse k).map (fun e => e.id)).Perm all_ids := by
    rw [← hbase_ids]
    exact hperm.map _
  refine ⟨?_, ?_, ?_, ?_, ?_⟩
  · rw [hids_perm.nodup_iff, hall]
    exact List.nodup_dedup _
  · intro i
    rw [hids_perm.mem_iff, hall, List.mem_dedup, List.mem_append]
  · have h1 : (rrf_fusion dense sparse k).length = base.length := hperm.length_eq
    have h2 : base.length = all_ids.length := by rw [hbase, List.length_map]
    rw [h1, h2]
  · intro e he
    have heb : e ∈ base := hperm.mem_iff.mp he
    rw [hbase] at heb
    rcases List.mem_map.mp heb with ⟨i, hi, hei⟩
    subst hei
    show rrf_score dense sparse k i = _
    rw [rrf_score, dict_rank_nodup hd i, dict_rank_nodup hs i]
    by_cases h1 : i ∈ dense.map (fun r => r.id) <;>
      by_cases h2 : i ∈ sparse.map (fun r => r.id) <;>
        simp [h1, h2]
  · rw [hfused]
    exact List.sorted_insertionSort score_ge base

/-- C4 witness: the fusion invariants at the spec's concrete example
(dense ids `[a, b, c]`, sparse ids `[b, a, d]`, `k = 60`). -/
theorem rrf_fusion_spec_witness :
    (([⟨"a", 0, "pa"⟩, ⟨"b", 0, "pb"⟩, ⟨"c", 0, "pc"⟩] :
        List ScoredPoint).map (fun r => r.id)).Nodup ∧
    (([⟨"b", 0, "qb"⟩, ⟨"a", 0, "qa"⟩, ⟨"d", 0, "qd"⟩] :
        List ScoredPoint).map (fun r => r.id)).Nodup ∧
    (((rrf_fusion [⟨"a", 0, "pa"⟩, ⟨"b", 0, "pb"⟩, ⟨"c", 0, "pc"⟩]
        [⟨"b", 0, "qb"⟩, ⟨"a", 0, "qa"⟩, ⟨"d", 0, "qd"⟩] 60).map (fun e => e.id)).Nodup ∧
    (∀ i, (i ∈ (rrf_fusion [⟨"a", 0, "pa"⟩, ⟨"b", 0, "pb"⟩, ⟨"c", 0, "pc"⟩]
        [⟨"b", 0, "qb"⟩, ⟨"a", 0, "qa"⟩, ⟨"d", 0, "qd"⟩] 60).map (fun e => e.id)) ↔
      (i ∈ ([⟨"a", 0, "pa"⟩, ⟨"b", 0, "pb"⟩, ⟨"c", 0, "pc"⟩] :
          List ScoredPoint).map (fun r => r.id) ∨
        i ∈ ([⟨"b", 0, "qb"⟩, ⟨"a", 0, "qa"⟩, ⟨"d", 0, "qd"⟩] :
          List ScoredPoint).map (fun r => r.id))) ∧
    (rrf_fusion [⟨"a", 0, "pa"⟩, ⟨"b", 0, "pb"⟩, ⟨"c", 0, "pc"⟩]
        [⟨"b", 0, "qb"⟩, ⟨"a", 0, "qa"⟩, ⟨"d", 0, "qd"⟩] 60).length ≤
      ((([⟨"a", 0, "pa"⟩, ⟨"b", 0, "pb"⟩, ⟨"c", 0, "pc"⟩] :
          List ScoredPoint).map (fun r => r.id)) ++
        (([⟨"b", 0, "qb"⟩, ⟨"a", 0, "qa"⟩, ⟨"d", 0, "qd"⟩] :
          List ScoredPoint).map (fun r => r.id))).dedup.length ∧
    (∀ e ∈ rrf_fusion [⟨"a", 0, "pa"⟩, ⟨"b", 0, "pb"⟩, ⟨"c", 0, "pc"⟩]
        [⟨"b", 0, "qb"⟩, ⟨"a", 0, "qa"⟩, ⟨"d", 0, "qd"⟩] 60, e.score =
      (if e.id ∈ ([⟨"a", 0, "pa"⟩, ⟨"b", 0, "pb"⟩, ⟨"c", 0, "pc"⟩] :
          List ScoredPoint).map (fun r => r.id)
        then 1 / ((60:ℚ) + ((([⟨"a", 0, "pa"⟩, ⟨"b", 0, "pb"⟩, ⟨"c", 0, "pc"⟩] :
          List ScoredPoint).map (fun r => r.id)).indexOf e.id + 1)) else 0) +
      (if e.id ∈ ([⟨"b", 0, "qb"⟩, ⟨"a", 0, "qa"⟩, ⟨"d", 0, "qd"⟩] :
          List ScoredPoint).map (fun r => r.id)
        then 1 / ((60:ℚ) + ((([⟨"b", 0, "qb"⟩, ⟨"a", 0, "qa"⟩, ⟨"d", 0, "qd"⟩] :
          List ScoredPoint).map (fun r => r.id)).indexOf e.id + 1)) else 0)) ∧
    (rrf_fusion [⟨"a", 0, "pa"⟩, ⟨"b", 0, "pb"⟩, ⟨"c", 0, "pc"⟩]
        [⟨"b", 0, "qb"⟩, ⟨"a", 0, "qa"⟩, ⟨"d", 0, "qd"⟩] 60).Sorted score_ge) :=
  ⟨by decide, by decide,
    rrf_fusion_spec [⟨"a", 0, "pa"⟩, ⟨"b", 0, "pb"⟩, ⟨"c", 0, "pc"⟩]
      [⟨"b", 0, "qb"⟩, ⟨"a", 0, "qa"⟩, ⟨"d", 0, "qd"⟩] 60 (by decide) (by decide)⟩

/-- Escalation-loop invariant when every tier the loop reaches succeeds
with positive quality: the attempted list grows by a non-empty prefix of
the remaining tiers, the cost accumulates the per-attempt page costs, and
the returned best result dominates every attempted tier. -/
theorem smart_go_all_ok (oracle : Tier → Except String (List String × ℚ))
    (cfg : ProgressiveConfig) (last_tier : Tier)
    (pagesOf : Tier → List String) (qOf : Tier → ℚ)
    (horacle : ∀ t, oracle t = Except.ok (pagesOf t, qOf t))
    (hpos : ∀ t, 0 < qOf t) :
    ∀ (remaining attempted : List Tier) (cost : ℚ) (best : Option TierBest),
    smart_best_inv pagesOf qOf attempted best →
    ∃ took : List Tier,
      took <+: remaining ∧ (remaining ≠ [] → took ≠ []) ∧
      (smart_go oracle cfg last_tier remaining attempted cost best
        (best_q_of best)).1 = attempted ++ took ∧
      (smart_go oracle cfg last_tier remaining attempted cost best
        (best_q_of best)).2.1 =
        cost + (took.map (fun u => ((pagesOf u).length : ℚ) * tier_cost u)).sum ∧
      smart_best_inv pagesOf qOf (attempted ++ took)
        (smart_go oracle cfg last_tier remaining attempted cost best
          (best_q_of best)).2.2 := by
  intro remaining
  induction remaining with
  | nil =>
    intro attempted cost best hinv
    refine ⟨[], List.prefix_rfl, fun h => absurd rfl h, by simp [smart_go],
      by simp [smart_go], by simpa [smart_go] using hinv⟩
  | cons t rest ih =>
    intro attempted cost best hinv
    have hmax : ∀ u ∈ attempted, qOf u ≤ best_q_of best := by
      cases best with
      | none =>
        have he : attempted = [] := hinv
        intro u hu
        rw [he] at hu
        cases hu
      | some b => exact hinv.2.2.2
    have hunfold : smart_go oracle cfg last_tier (t :: rest) attempted cost best
        (best_q_of best) =
        (if qOf t ≥ cfg.target_quality then
          (attempted ++ [t], cost + ((pagesOf t).length : ℚ) * tier_cost t,
            if qOf t > best_q_of best then some ⟨pagesOf t, qOf t, t⟩ else best)
        else if cfg.auto_retry ∧ t ≠ last_tier then
          smart_go oracle cfg last_tier rest (attempted ++ [t])
            (cost + ((pagesOf t).length : ℚ) * tier_cost t)
            (if qOf t > best_q_of best then some ⟨pagesOf t, qOf t, t⟩ else best)
            (if qOf t > best_q_of best then qOf t else best_q_of best)
        else
          (attempted ++ [t], cost + ((pagesOf t).length : ℚ) * tier_cost t,
            if qOf t > best_q_of best then some ⟨pagesOf t, qOf t, t⟩ else best)) := by
      rw [smart_go, horacle t]
    rw [hunfold]
    by_cases hgt : qOf t > best_q_of best
    · simp only [if_pos hgt]
      have hinv' : smart_best_inv pagesOf qOf (attempted ++ [t])
          (some ⟨pagesOf t, qOf t, t⟩) := by
        refine ⟨rfl, rfl, List.mem_append_right _ (List.mem_singleton_self t), ?_⟩
        intro u hu
        rcases List.mem_append.mp hu with hu | hu
        · exact le_of_lt (lt_of_le_of_lt (hmax u hu) hgt)
        · rw [List.mem_singleton.mp hu]
      by_cases htar : qOf t ≥ cfg.target_quality
      · simp only [if_pos htar]
        exact ⟨[t], ⟨rest, rfl⟩, fun _ => by simp, rfl, by simp, hinv'⟩
      · by_cases hcont : cfg.auto_retry ∧ t ≠ last_tier
        · simp only [if_neg htar, if_pos hcont]
          obtain ⟨took', hp', hne', h1', h2', hinv''⟩ :=
            ih (attempted ++ [t]) (cost + ((pagesOf t).length : ℚ) * tier_cost t)
              (some ⟨pagesOf t, qOf t, t⟩) hinv'
          simp only [best_q_of] at h1' h2' hinv''
          obtain ⟨s, hs⟩ := hp'
          refine ⟨t :: took', ⟨s, by rw [List.cons_append, hs]⟩,
            fun _ => List.cons_ne_nil t took', ?_, ?_, ?_⟩
          · rw [h1', List.append_assoc]
            rfl
          · rw [h2', List.map_cons, List.sum_cons]
            ring
          · have : attempted ++ t :: took' = (attempted ++ [t]) ++ took' := by
              rw [List.append_assoc]
              rfl
            rw [this]
            exact hinv''
        · simp only [if_neg htar, if_neg hcont]
          exact ⟨[t], ⟨rest, rfl⟩, fun _ => by simp, rfl, by simp, hinv'⟩
    · simp only [if_neg hgt]
      cases best with
      | none => exact absurd (hpos t) hgt
      | some b =>
        have hinv' : smart_best_inv pagesOf qOf (attempted ++ [t]) (some b) := by
          refine ⟨hinv.1, hinv.2.1, List.mem_append_left _ hinv.2.2.1, ?_⟩
          intro u hu
          rcases List.mem_append.mp hu with hu | hu
          · exact hinv.2.2.2 u hu
          · rw [List.mem_singleton.mp hu]
            exact not_lt.mp hgt
        by_cases htar : qOf t ≥ cfg.target_quality
        · simp only [if_pos htar]
          exact ⟨[t], ⟨rest, rfl⟩, fun _ => by simp, rfl, by simp, hinv'⟩
        · by_cases hcont : cfg.auto_retry ∧ t ≠ last_tier
          · simp only [if_neg htar, if_pos hcont]
            obtain ⟨took', hp', hne', h1', h2', hinv''⟩ :=
              ih (attempted ++ [t]) (cost + ((pagesOf t).length : ℚ) * tier_cost t)
                (some b) hinv'
            obtain ⟨s, hs⟩ := hp'
            refine ⟨t :: took', ⟨s, by rw [List.cons_append, hs]⟩,
              fun _ => List.cons_ne_nil t took', ?_, ?_, ?_⟩
            · rw [h1', List.append_assoc]
              rfl
            · rw [h2', List.map_cons, List.sum_cons]
              ring
            · have : attempted ++ t :: took' = (attempted ++ [t]) ++ took' := by
                rw [List.append_assoc]
                rfl
              rw [this]
              exact hinv''
          · simp only [if_neg htar, if_neg hcont]
            exact ⟨[t], ⟨rest, rfl⟩, fun _ => by simp, rfl, by simp, hinv'⟩

/-- C5 amended: on runs where every attempted tier succeeds with positive
quality (so the emergency quota fallback never fires), the returned
`ExtractionResult` carries the best-seen pages — the pages, tier and
quality of an attempted extraction whose score dominates every attempted
tier — together with the non-empty tiers-attempted list (a prefix of the
configured order) and the cumulative cost over all attempts.  When a
rate/quota error triggers the fast-tier fallback, the code instead
overwrites `best_result` with the fast rerun unconditionally, so the
result can carry strictly worse pages than the best attempt (see the
counterexample). -/
theorem extract_smart_routing_all_ok (oracle : Tier → Except String (List String × ℚ))
    (cfg : ProgressiveConfig) (pagesOf : Tier → List String) (qOf : Tier → ℚ)
    (horacle : ∀ t, oracle t = Except.ok (pagesOf t, qOf t))
    (hpos : ∀ t, 0 < qOf t) (hne : tier_sequence cfg ≠ []) :
    (extract_with_smart_routing oracle cfg).success = true ∧
    (extract_with_smart_routing oracle cfg).tier_attempted <+: tier_sequence cfg ∧
    (extract_with_smart_routing oracle cfg).tier_attempted ≠ [] ∧
    (∀ t ∈ (extract_with_smart_routing oracle cfg).tier_attempted,
      qOf t ≤ (extract_with_smart_routing oracle cfg).quality_score) ∧
    (extract_with_smart_routing oracle cfg).tier_used ∈
      (extract_with_smart_routing oracle cfg).tier_attempted ∧
    qOf (extract_with_smart_routing oracle cfg).tier_used =
      (extract_with_smart_routing oracle cfg).quality_score ∧
    (extract_with_smart_routing oracle cfg).pages =
      pagesOf (extract_with_smart_routing oracle cfg).tier_used ∧
    (extract_with_smart_routing oracle cfg).cost =
      ((extract_with_smart_routing oracle cfg).tier_attempted.map
        (fun u => ((pagesOf u).length : ℚ) * tier_cost u)).sum := by
  obtain ⟨took, hpre, hneed, h1, h2, hinv⟩ :=
    smart_go_all_ok oracle cfg ((tier_sequence cfg).getLastD Tier.fast) pagesOf qOf
      horacle hpos (tier_sequence cfg) [] 0 none rfl
  simp only [best_q_of] at h1 h2 hinv
  rw [List.nil_append] at h1 hinv
  rw [zero_add] at h2
  have htookne : took ≠ [] := hneed hne
  cases hcase : (smart_go oracle cfg ((tier_sequence cfg).getLastD Tier.fast)
      (tier_sequence cfg) [] 0 none 0).2.2 with
  | none =>
    rw [hcase] at hinv
    have he : took = [] := hinv
    exact absurd he htookne
  | some b =>
    have hres : extract_with_smart_routing oracle cfg =
        ExtractionResult.mk b.pages b.tier
          (smart_go oracle cfg ((tier_sequence cfg).getLastD Tier.fast)
            (tier_sequence cfg) [] 0 none 0).1 b.q
          (smart_go oracle cfg ((tier_sequence cfg).getLastD Tier.fast)
            (tier_sequence cfg) [] 0 none 0).2.1 true none := by
      simp only [extract_with_smart_routing]
      rw [hcase]
    rw [hcase] at hinv
    obtain ⟨hbp, hbq, hbmem, hball⟩ := hinv
    rw [hres]
    refine ⟨rfl, ?_, ?_, ?_, ?_, ?_, ?_, ?_⟩
    · rw [h1]
      exact hpre
    · rw [h1]
      exact htookne
    · intro t ht
      rw [h1] at ht
      exact hball t ht
    · rw [h1]
      exact hbmem
    · exact hbq.symm
    · exact hbp
    · rw [h2, h1]

/-- C5 witness: the amended claim at a concrete all-successful oracle. -/
theorem extract_smart_routing_all_ok_witness :
    (∀ t, allok_oracle t = Except.ok (allok_pages t, allok_q t)) ∧
    (∀ t, 0 < allok_q t) ∧
    tier_sequence allok_cfg ≠ [] ∧
    ((extract_with_smart_routing allok_oracle allok_cfg).success = true ∧
    (extract_with_smart_routing allok_oracle allok_cfg).tier_attempted <+:
      tier_sequence allok_cfg ∧
    (extract_with_smart_routing allok_oracle allok_cfg).tier_attempted ≠ [] ∧
    (∀ t ∈ (extract_with_smart_routing allok_oracle allok_cfg).tier_attempted,
      allok_q t ≤ (extract_with_smart_routing allok_oracle allok_cfg).quality_score) ∧
    (extract_with_smart_routing allok_oracle allok_cfg).tier_used ∈
      (extract_with_smart_routing allok_oracle allok_cfg).tier_attempted ∧
    allok_q (extract_with_smart_routing allok_oracle allok_cfg).tier_used =
      (extract_with_smart_routing allok_oracle allok_cfg).quality_score ∧
    (extract_with_smart_routing allok_oracle allok_cfg).pages =
      allok_pages (extract_with_smart_routing allok_oracle allok_cfg).tier_used ∧
    (extract_with_smart_routing allok_oracle allok_cfg).cost =
      ((extract_with_smart_routing allok_oracle allok_cfg).tier_attempted.map
        (fun u => ((allok_pages u).length : ℚ) * tier_cost u)).sum) :=
  ⟨fun _ => rfl, fun t => by cases t <;> norm_num [allok_q], by decide,
    extract_smart_routing_all_ok allok_oracle allok_cfg allok_pages allok_q
      (fun _ => rfl) (fun t => by cases t <;> norm_num [allok_q]) (by decide)⟩

/-- C5 counterexample: with all tiers enabled, target 4/5 and auto-retry,
the fast tier scores 1/2 and the balanced tier 3/4; the premium tier then
raises a 429 rate-limit error, triggering the emergency fast fallback.
The emergency branch overwrites `best_result` unconditionally, so the
returned result carries the fast rerun (quality 1/2) even though the
attempted balanced tier produced strictly better pages (quality 3/4) —
contradicting the claim that the result carries the maximum-quality
attempt. -/
theorem extract_smart_routing_fallback_discards_best :
    (extract_with_smart_routing quota_oracle quota_cfg).tier_used = Tier.fast ∧
    (extract_with_smart_routing quota_oracle quota_cfg).pages = ["fast page"] ∧
    (extract_with_smart_routing quota_oracle quota_cfg).quality_score = 1/2 ∧
    (extract_with_smart_routing quota_oracle quota_cfg).tier_attempted =
      [Tier.fast, Tier.balanced, Tier.premium] ∧
    quota_oracle Tier.balanced = Except.ok (["balanced page"], 3/4) ∧
    (extract_with_smart_routing quota_oracle quota_cfg).quality_score < 3/4 := by
  have hq : is_quota_error "429 rate limit exceeded" = true := by decide
  have htu : (extract_with_smart_routing quota_oracle quota_cfg).tier_used = Tier.fast := by
    norm_num [extract_with_smart_routing, smart_go, tier_sequence, quota_oracle,
      quota_cfg, tier_cost, hq, List.getLastD]
    simp
  have hp : (extract_with_smart_routing quota_oracle quota_cfg).pages = ["fast page"] := by
    norm_num [extract_with_smart_routing, smart_go, tier_sequence, quota_oracle,
      quota_cfg, tier_cost, hq, List.getLastD]
    simp
  have hs : (extract_with_smart_routing quota_oracle quota_cfg).quality_score = 1/2 := by
    norm_num [extract_with_smart_routing, smart_go, tier_sequence, quota_oracle,
      quota_cfg, tier_cost, hq, List.getLastD]
    simp
  have ha : (extract_with_smart_routing quota_oracle quota_cfg).tier_attempted =
      [Tier.fast, Tier.balanced, Tier.premium] := by
    norm_num [extract_with_smart_routing, smart_go, tier_sequence, quota_oracle,
      quota_cfg, tier_cost, hq, List.getLastD]
    simp
  exact ⟨htu, hp, hs, ha, rfl, by rw [hs]; norm_num⟩

end RagMcp
